import Mathlib

/-!
Shallow embedding of the scene-spawning subsystem of the repository
(`src/scene.rs`): the `GodotScene` component with its builder methods, and the
`spawn_scene` system that resolves a scene resource, instantiates it, attaches
the instance to the current scene root, optionally applies a transform, and
inserts `ErasedGd` plus the `GodotSceneSpawned` marker on the entity.

Engine-side values (vectors, transforms, nodes, packed scenes, the resource
loader and the asset store) are modelled explicitly; scalar coordinates are
modelled over `Int` since no claim depends on floating-point rounding.
Fatal conditions (`expect` / `unwrap`) are modelled as the `Except.error`
branch carrying the panic message; Bevy commands are buffered during the pass
and applied only on a successful pass, mirroring the deferred command flush.
-/

set_option autoImplicit false

namespace BevyGodot

/-- Godot `Vector2`, with integer-modelled scalar components. -/
structure Vector2 where
  x : Int
  y : Int
deriving DecidableEq

/-- Godot `Vector3`, with integer-modelled scalar components. -/
structure Vector3 where
  x : Int
  y : Int
  z : Int
deriving DecidableEq

def Vector2.add (a b : Vector2) : Vector2 :=
  ⟨a.x + b.x, a.y + b.y⟩

def Vector3.add (a b : Vector3) : Vector3 :=
  ⟨a.x + b.x, a.y + b.y, a.z + b.z⟩

/-- Godot `Transform2D`: two basis columns and an origin. -/
structure Transform2D where
  a : Vector2
  b : Vector2
  origin : Vector2
deriving DecidableEq

/-- Godot `Transform2D::IDENTITY`. -/
def Transform2D.IDENTITY : Transform2D :=
  ⟨⟨1, 0⟩, ⟨0, 1⟩, ⟨0, 0⟩⟩

/-- Godot `Transform2D::translated`: returns a copy translated by the offset. -/
def Transform2D.translated (t : Transform2D) (offset : Vector2) : Transform2D :=
  { t with origin := t.origin.add offset }

/-- Godot `Basis` (3x3 matrix), as three rows. -/
structure Basis where
  row0 : Vector3
  row1 : Vector3
  row2 : Vector3
deriving DecidableEq

/-- Godot `Basis::IDENTITY`. -/
def Basis.IDENTITY : Basis :=
  ⟨⟨1, 0, 0⟩, ⟨0, 1, 0⟩, ⟨0, 0, 1⟩⟩

/-- Godot `Transform3D`: a basis and an origin. -/
structure Transform3D where
  basis : Basis
  origin : Vector3
deriving DecidableEq

/-- `Transform3D::default()` in godot-rust is the identity transform. -/
def Transform3D.default : Transform3D :=
  ⟨Basis.IDENTITY, ⟨0, 0, 0⟩⟩

/-- Godot `Transform3D::translated`: returns a copy translated by the offset. -/
def Transform3D.translated (t : Transform3D) (offset : Vector3) : Transform3D :=
  { t with origin := t.origin.add offset }

/-- The node classes relevant to `spawn_scene`: `try_cast` to `Node2D`
succeeds exactly on 2D nodes and `try_cast` to `Node3D` exactly on 3D ones. -/
inductive NodeClass where
  | node
  | node2d
  | node3d
deriving DecidableEq

/-- Whether a `try_cast` of a node of this class to `Node2D` succeeds. -/
def NodeClass.castsToNode2D : NodeClass → Bool
  | .node2d => true
  | _ => false

/-- Whether a `try_cast` of a node of this class to `Node3D` succeeds. -/
def NodeClass.castsToNode3D : NodeClass → Bool
  | .node3d => true
  | _ => false

/-- `godot::engine::packed_scene::GenEditState`. -/
inductive GenEditState where
  | GEN_EDIT_STATE_DISABLED
  | GEN_EDIT_STATE_INSTANCE
  | GEN_EDIT_STATE_MAIN
  | GEN_EDIT_STATE_MAIN_INHERITED
deriving DecidableEq

/-- `godot::engine::node::InternalMode`. -/
inductive InternalMode where
  | INTERNAL_MODE_DISABLED
  | INTERNAL_MODE_FRONT
  | INTERNAL_MODE_BACK
deriving DecidableEq

/-- `godot::engine::resource_loader::CacheMode`. -/
inductive CacheMode where
  | CACHE_MODE_IGNORE
  | CACHE_MODE_REUSE
  | CACHE_MODE_REPLACE
deriving DecidableEq

/-- A live scene-graph node: root of an instantiated tree. Its class and child
count come from the template; `t2` and `t3` are its global 2D and 3D
transforms; `editState` records the flag the instantiation was performed
with. -/
structure Node where
  cls : NodeClass
  childCount : Nat
  t2 : Transform2D
  t3 : Transform3D
  editState : GenEditState
deriving DecidableEq

/-- Godot `PackedScene`: a scene template. `rootClass`, `childCount` and the
default transforms describe the tree it instantiates; `canInstantiate` is
whether `instantiate` yields a root (it returns an `Option` in the engine
API). -/
structure PackedScene where
  rootClass : NodeClass
  childCount : Nat
  defaultT2 : Transform2D
  defaultT3 : Transform3D
  canInstantiate : Bool
deriving DecidableEq

/-- `PackedScene::instantiate`: produce a fresh detached root node, or none. -/
def PackedScene.instantiate (p : PackedScene) (s : GenEditState) : Option Node :=
  if p.canInstantiate then
    some ⟨p.rootClass, p.childCount, p.defaultT2, p.defaultT3, s⟩
  else
    none

/-- An engine resource: either a packed scene or some other resource kind. -/
inductive GodotResource where
  | packedScene (p : PackedScene)
  | other (kind : String)
deriving DecidableEq

/-- `try_cast::<PackedScene>` on a resource. -/
def GodotResource.tryCastPackedScene : GodotResource → Option PackedScene
  | .packedScene p => some p
  | .other _ => none

/-- `ErasedGdResource`: a type-erased shared resource reference; `get` clones
out the underlying resource pointer. -/
structure ErasedGdResource where
  res : GodotResource
deriving DecidableEq

def ErasedGdResource.get (e : ErasedGdResource) : GodotResource :=
  e.res

/-- `ErasedGd`: the type-erased node handle inserted on the entity. Modelled
as the id (index) of the node it refers to. -/
structure ErasedGd where
  nodeId : Nat
deriving DecidableEq

def ErasedGd.new (nodeId : Nat) : ErasedGd :=
  ⟨nodeId⟩

/-- `GodotSceneResource` from `scene.rs`: the three ways of naming the scene
resource. Asset handles are modelled as `Nat` ids. -/
inductive GodotSceneResource where
  | Path (path : String)
  | Handle (handle : Nat)
  | Resource (res : ErasedGdResource)
deriving DecidableEq

/-- `GodotSceneTransform` from `scene.rs`. -/
inductive GodotSceneTransform where
  | Transform2D (t : Transform2D)
  | Transform3D (t : Transform3D)
deriving DecidableEq

/-- The `GodotScene` component from `scene.rs`. -/
structure GodotScene where
  resource : GodotSceneResource
  transform : Option GodotSceneTransform
deriving DecidableEq

/-- `GodotScene::from_path`. -/
def GodotScene.from_path (path : String) : GodotScene :=
  ⟨.Path path, none⟩

/-- `GodotScene::from_handle` (the handle is cloned, modelled as copying the
id). -/
def GodotScene.from_handle (handle : Nat) : GodotScene :=
  ⟨.Handle handle, none⟩

/-- `GodotScene::from_resource`. -/
def GodotScene.from_resource (res : ErasedGdResource) : GodotScene :=
  ⟨.Resource res, none⟩

/-- `GodotScene::with_transform3d`. -/
def GodotScene.with_transform3d (s : GodotScene) (t : Transform3D) : GodotScene :=
  { s with transform := some (.Transform3D t) }

/-- `GodotScene::with_transform2d`. -/
def GodotScene.with_transform2d (s : GodotScene) (t : Transform2D) : GodotScene :=
  { s with transform := some (.Transform2D t) }

/-- `GodotScene::with_translation3d`. -/
def GodotScene.with_translation3d (s : GodotScene) (translation : Vector3) : GodotScene :=
  { s with transform := some (.Transform3D (Transform3D.default.translated translation)) }

/-- `GodotScene::with_translation2d`. -/
def GodotScene.with_translation2d (s : GodotScene) (translation : Vector2) : GodotScene :=
  { s with transform := some (.Transform2D (Transform2D.IDENTITY.translated translation)) }

/-- The `GodotSceneSpawned` marker component (zero data). -/
structure GodotSceneSpawned where
deriving DecidableEq

/-- An ECS entity as seen by the `spawn_scene` query: its id, its optional
`GodotScene` component, whether the `GodotSceneSpawned` marker is present,
and its optional `ErasedGd` component. -/
structure EntityRec where
  id : Nat
  scene : Option GodotScene
  spawned : Bool
  gd : Option ErasedGd
deriving DecidableEq

/-- The `spawn_scene` query `(&mut GodotScene, Entity), Without<GodotSceneSpawned>`
matches entities that have a scene component and no marker. -/
def EntityRec.matchesQuery (e : EntityRec) : Bool :=
  e.scene.isSome && !e.spawned

/-- One `add_child` record on the current scene root: the node id and the two
flags passed to `add_child`. -/
structure ChildEntry where
  node : Nat
  legibleUniqueName : Bool
  internal : InternalMode
deriving DecidableEq

/-- Engine scene-graph state: whether `get_current_scene` returns a root,
the allocated nodes (a node id is an index into this list), and the children
added to the current scene root. -/
structure SceneTreeState where
  hasCurrentScene : Bool
  nodes : List Node
  rootChildren : List ChildEntry
deriving DecidableEq

/-- A structured log event emitted through `tracing`. -/
inductive LogEvent where
  | error (msg : String)
deriving DecidableEq

/-- The message of the two `tracing::error` calls in `spawn_scene` (the source
uses the same text in the 2D and the 3D mismatch branch). -/
def transformMismatchMsg : String :=
  "attempted to spawn a scene with a transform on Node that did not inherit from Node3D, the transform was not set"

def msgAssetMissing : String :=
  "packed scene to exist in assets"

def msgLoadFailed : String :=
  "packed scene to load"

def msgNotPackedScene : String :=
  "resource to be a packed scene"

def msgUnwrapNone : String :=
  "called Option::unwrap() on a None value"

/-- Association-list lookup, used for the asset store, the loader table and
the deferred command buffer. -/
def assocLookup {α β : Type} [DecidableEq α] : List (α × β) → α → Option β
  | [], _ => none
  | (k, v) :: rest, a => if a = k then some v else assocLookup rest a

/-- `Assets::<ErasedGdResource>::get_mut` modelled as lookup in the asset
store (no mutation of the store occurs in `spawn_scene`). -/
def Assets.get (assets : List (Nat × ErasedGdResource)) (handle : Nat) :
    Option ErasedGdResource :=
  assocLookup assets handle

/-- `ResourceLoader::singleton().load(path, type_hint, cache_mode)`: the
loader environment is a table from paths to the resources they load; a path
outside the table fails to load. -/
def ResourceLoader.load (table : List (String × GodotResource)) (path : String)
    (_typeHint : String) (_cacheMode : CacheMode) : Option GodotResource :=
  assocLookup table path

/-- The resolution step of `spawn_scene` (the `match &mut scene.resource`
block, lines 102-115): each `GodotSceneResource` variant yields a resource,
or the panic message of the failed `expect`. -/
def resolveResource (assets : List (Nat × ErasedGdResource))
    (loader : List (String × GodotResource)) :
    GodotSceneResource → Except String GodotResource
  | .Handle handle =>
    match Assets.get assets handle with
    | some res => .ok res.get
    | none => .error msgAssetMissing
  | .Path path =>
    match ResourceLoader.load loader path "PackedScene" CacheMode.CACHE_MODE_REUSE with
    | some res => .ok res
    | none => .error msgLoadFailed
  | .Resource res => .ok res.get

/-- Replace the node at index `nid` by `f` applied to it. -/
def updateNode : List Node → Nat → (Node → Node) → List Node
  | [], _, _ => []
  | n :: rest, 0, f => f n :: rest
  | n :: rest, k + 1, f => n :: updateNode rest k f

/-- The body of the `spawn_scene` loop for one matched entity's `GodotScene`:
resolve the resource, cast it to `PackedScene` and instantiate it
(`GEN_EDIT_STATE_DISABLED`), `add_child` it on the current scene
(`unwrap` on `get_current_scene`, legible-unique-name `false`,
`INTERNAL_MODE_DISABLED`), then apply the optional transform through a
`try_cast` to `Node2D` or `Node3D`, logging on a failed cast. Returns the
engine state, the log and the new node id, or the panic message. -/
def processScene (assets : List (Nat × ErasedGdResource))
    (loader : List (String × GodotResource)) (tree : SceneTreeState)
    (log : List LogEvent) (scene : GodotScene) :
    Except String (SceneTreeState × List LogEvent × Nat) :=
  match resolveResource assets loader scene.resource with
  | .error m => .error m
  | .ok packedScene =>
    match packedScene.tryCastPackedScene with
    | none => .error msgNotPackedScene
    | some ps =>
      match ps.instantiate GenEditState.GEN_EDIT_STATE_DISABLED with
      | none => .error msgUnwrapNone
      | some inst =>
        let nid := tree.nodes.length
        let tree0 := { tree with nodes := tree.nodes ++ [inst] }
        if tree0.hasCurrentScene then
          let tree1 := { tree0 with
            rootChildren :=
              tree0.rootChildren ++ [⟨nid, false, InternalMode.INTERNAL_MODE_DISABLED⟩] }
          match scene.transform with
          | none => .ok (tree1, log, nid)
          | some (.Transform2D t) =>
            if inst.cls.castsToNode2D then
              .ok ({ tree1 with nodes := updateNode tree1.nodes nid (fun n => { n with t2 := t }) },
                log, nid)
            else
              .ok (tree1, log ++ [LogEvent.error transformMismatchMsg], nid)
          | some (.Transform3D t) =>
            if inst.cls.castsToNode3D then
              .ok ({ tree1 with nodes := updateNode tree1.nodes nid (fun n => { n with t3 := t }) },
                log, nid)
            else
              .ok (tree1, log ++ [LogEvent.error transformMismatchMsg], nid)
        else
          .error msgUnwrapNone

/-- The `spawn_scene` loop over the query: visits the entities in order,
skips those the query does not match, threads the engine state, and collects
the deferred command insertions `(entity id, node id)`. A panic anywhere
aborts the whole pass. -/
def runPass (assets : List (Nat × ErasedGdResource))
    (loader : List (String × GodotResource)) :
    List EntityRec → SceneTreeState → List LogEvent →
    Except String (SceneTreeState × List LogEvent × List (Nat × Nat))
  | [], tree, log => .ok (tree, log, [])
  | e :: rest, tree, log =>
    match e.scene, e.spawned with
    | some sc, false =>
      match processScene assets loader tree log sc with
      | .error m => .error m
      | .ok (tree1, log1, nid) =>
        match runPass assets loader rest tree1 log1 with
        | .error m => .error m
        | .ok (tree2, log2, cmds) => .ok (tree2, log2, (e.id, nid) :: cmds)
    | _, _ => runPass assets loader rest tree log

/-- The command flush after the pass: each buffered command inserts
`ErasedGd::new(node)` and `GodotSceneSpawned` on its entity. -/
def applyCommands (cmds : List (Nat × Nat)) (es : List EntityRec) : List EntityRec :=
  es.map fun e =>
    match assocLookup cmds e.id with
    | some nid => { e with spawned := true, gd := some (ErasedGd.new nid) }
    | none => e

/-- The whole world the `spawn_scene` system touches: the entities, the asset
store, the loader environment, the engine scene tree and the log. -/
structure World where
  entities : List EntityRec
  assets : List (Nat × ErasedGdResource)
  loader : List (String × GodotResource)
  tree : SceneTreeState
  log : List LogEvent
deriving DecidableEq

/-- A panic aborting the pass: the message, and the ECS component state at
the abort (the deferred commands were never flushed, so the entities are the
ones the pass started with). -/
structure Panic where
  msg : String
  entities : List EntityRec
deriving DecidableEq

/-- One pass of the `spawn_scene` system followed by its command flush. -/
def spawn_scene (w : World) : Except Panic World :=
  match runPass w.assets w.loader w.entities w.tree w.log with
  | .error m => .error ⟨m, w.entities⟩
  | .ok (tree1, log1, cmds) =>
    .ok { w with entities := applyCommands cmds w.entities, tree := tree1, log := log1 }

/-! ### Helper lemmas about the pass -/

/-- The node `instantiate` yields in `spawn_scene` (edit state disabled). -/
def instantiatedNode (ps : PackedScene) : Node :=
  ⟨ps.rootClass, ps.childCount, ps.defaultT2, ps.defaultT3,
    GenEditState.GEN_EDIT_STATE_DISABLED⟩

/-- The `add_child` record `spawn_scene` produces on a tree state. -/
def newChildEntry (tree : SceneTreeState) : ChildEntry :=
  ⟨tree.nodes.length, false, InternalMode.INTERNAL_MODE_DISABLED⟩

theorem instantiate_of_can (ps : PackedScene) (s : GenEditState)
    (h : ps.canInstantiate = true) :
    ps.instantiate s = some ⟨ps.rootClass, ps.childCount, ps.defaultT2, ps.defaultT3, s⟩ := by
  simp [PackedScene.instantiate, h]

theorem updateNode_append_length (xs : List Node) (n : Node) (f : Node → Node) :
    updateNode (xs ++ [n]) xs.length f = xs ++ [f n] := by
  induction xs with
  | nil => rfl
  | cons x xs ih => simp [updateNode, ih]

/-- `processScene` with no transform descriptor. -/
theorem processScene_noTransform (assets : List (Nat × ErasedGdResource))
    (loader : List (String × GodotResource)) (tree : SceneTreeState)
    (log : List LogEvent) (sc : GodotScene) (res : GodotResource) (ps : PackedScene)
    (hres : resolveResource assets loader sc.resource = .ok res)
    (hcast : res.tryCastPackedScene = some ps)
    (hinst : ps.canInstantiate = true)
    (hcs : tree.hasCurrentScene = true)
    (htr : sc.transform = none) :
    processScene assets loader tree log sc =
      .ok ({ tree with
               nodes := tree.nodes ++ [instantiatedNode ps],
               rootChildren := tree.rootChildren ++ [newChildEntry tree] },
           log, tree.nodes.length) := by
  simp [processScene, hres, hcast, instantiate_of_can ps _ hinst, hcs, htr,
    instantiatedNode, newChildEntry]

/-- `processScene` with a 2D descriptor on a 2D-castable root. -/
theorem processScene_t2_hit (assets : List (Nat × ErasedGdResource))
    (loader : List (String × GodotResource)) (tree : SceneTreeState)
    (log : List LogEvent) (sc : GodotScene) (res : GodotResource) (ps : PackedScene)
    (t : Transform2D)
    (hres : resolveResource assets loader sc.resource = .ok res)
    (hcast : res.tryCastPackedScene = some ps)
    (hinst : ps.canInstantiate = true)
    (hcs : tree.hasCurrentScene = true)
    (htr : sc.transform = some (.Transform2D t))
    (hcls : ps.rootClass.castsToNode2D = true) :
    processScene assets loader tree log sc =
      .ok ({ tree with
               nodes := tree.nodes ++ [{ instantiatedNode ps with t2 := t }],
               rootChildren := tree.rootChildren ++ [newChildEntry tree] },
           log, tree.nodes.length) := by
  simp only [processScene, hres, hcast, instantiate_of_can ps _ hinst, htr]
  simp only [hcs, if_true, hcls]
  rw [show tree.nodes.length = (tree.nodes).length from rfl]
  simp [updateNode_append_length, instantiatedNode, newChildEntry]

/-- `processScene` with a 3D descriptor on a 3D-castable root. -/
theorem processScene_t3_hit (assets : List (Nat × ErasedGdResource))
    (loader : List (String × GodotResource)) (tree : SceneTreeState)
    (log : List LogEvent) (sc : GodotScene) (res : GodotResource) (ps : PackedScene)
    (t : Transform3D)
    (hres : resolveResource assets loader sc.resource = .ok res)
    (hcast : res.tryCastPackedScene = some ps)
    (hinst : ps.canInstantiate = true)
    (hcs : tree.hasCurrentScene = true)
    (htr : sc.transform = some (.Transform3D t))
    (hcls : ps.rootClass.castsToNode3D = true) :
    processScene assets loader tree log sc =
      .ok ({ tree with
               nodes := tree.nodes ++ [{ instantiatedNode ps with t3 := t }],
               rootChildren := tree.rootChildren ++ [newChildEntry tree] },
           log, tree.nodes.length) := by
  simp only [processScene, hres, hcast, instantiate_of_can ps _ hinst, htr]
  simp only [hcs, if_true, hcls]
  simp [updateNode_append_length, instantiatedNode, newChildEntry]

/-- `processScene` with a 2D descriptor on a root that is not 2D-castable:
not fatal, the node is untouched and a mismatch event is logged. -/
theorem processScene_t2_miss (assets : List (Nat × ErasedGdResource))
    (loader : List (String × GodotResource)) (tree : SceneTreeState)
    (log : List LogEvent) (sc : GodotScene) (res : GodotResource) (ps : PackedScene)
    (t : Transform2D)
    (hres : resolveResource assets loader sc.resource = .ok res)
    (hcast : res.tryCastPackedScene = some ps)
    (hinst : ps.canInstantiate = true)
    (hcs : tree.hasCurrentScene = true)
    (htr : sc.transform = some (.Transform2D t))
    (hcls : ps.rootClass.castsToNode2D = false) :
    processScene assets loader tree log sc =
      .ok ({ tree with
               nodes := tree.nodes ++ [instantiatedNode ps],
               rootChildren := tree.rootChildren ++ [newChildEntry tree] },
           log ++ [LogEvent.error transformMismatchMsg], tree.nodes.length) := by
  simp [processScene, hres, hcast, instantiate_of_can ps _ hinst, hcs, htr, hcls,
    instantiatedNode, newChildEntry]

/-- `processScene` with a 3D descriptor on a root that is not 3D-castable:
not fatal, the node is untouched and a mismatch event is logged. -/
theorem processScene_t3_miss (assets : List (Nat × ErasedGdResource))
    (loader : List (String × GodotResource)) (tree : SceneTreeState)
    (log : List LogEvent) (sc : GodotScene) (res : GodotResource) (ps : PackedScene)
    (t : Transform3D)
    (hres : resolveResource assets loader sc.resource = .ok res)
    (hcast : res.tryCastPackedScene = some ps)
    (hinst : ps.canInstantiate = true)
    (hcs : tree.hasCurrentScene = true)
    (htr : sc.transform = some (.Transform3D t))
    (hcls : ps.rootClass.castsToNode3D = false) :
    processScene assets loader tree log sc =
      .ok ({ tree with
               nodes := tree.nodes ++ [instantiatedNode ps],
               rootChildren := tree.rootChildren ++ [newChildEntry tree] },
           log ++ [LogEvent.error transformMismatchMsg], tree.nodes.length) := by
  simp [processScene, hres, hcast, instantiate_of_can ps _ hinst, hcs, htr, hcls,
    instantiatedNode, newChildEntry]

theorem processScene_resolve_error (assets : List (Nat × ErasedGdResource))
    (loader : List (String × GodotResource)) (tree : SceneTreeState)
    (log : List LogEvent) (sc : GodotScene) (m : String)
    (hres : resolveResource assets loader sc.resource = .error m) :
    processScene assets loader tree log sc = .error m := by
  simp [processScene, hres]

theorem processScene_cast_error (assets : List (Nat × ErasedGdResource))
    (loader : List (String × GodotResource)) (tree : SceneTreeState)
    (log : List LogEvent) (sc : GodotScene) (res : GodotResource)
    (hres : resolveResource assets loader sc.resource = .ok res)
    (hcast : res.tryCastPackedScene = none) :
    processScene assets loader tree log sc = .error msgNotPackedScene := by
  simp [processScene, hres, hcast]

theorem processScene_instantiate_error (assets : List (Nat × ErasedGdResource))
    (loader : List (String × GodotResource)) (tree : SceneTreeState)
    (log : List LogEvent) (sc : GodotScene) (res : GodotResource) (ps : PackedScene)
    (hres : resolveResource assets loader sc.resource = .ok res)
    (hcast : res.tryCastPackedScene = some ps)
    (hinst : ps.canInstantiate = false) :
    processScene assets loader tree log sc = .error msgUnwrapNone := by
  simp [processScene, hres, hcast, PackedScene.instantiate, hinst]

/-- Without a current scene root, `processScene` always panics: every failure
path is an error and the success path needs `get_current_scene` to succeed. -/
theorem processScene_noCurrentScene (assets : List (Nat × ErasedGdResource))
    (loader : List (String × GodotResource)) (tree : SceneTreeState)
    (log : List LogEvent) (sc : GodotScene)
    (hcs : tree.hasCurrentScene = false) :
    ∃ m, processScene assets loader tree log sc = .error m := by
  cases hres : resolveResource assets loader sc.resource with
  | error m => exact ⟨m, processScene_resolve_error _ _ _ _ _ _ hres⟩
  | ok res =>
    cases hcast : res.tryCastPackedScene with
    | none => exact ⟨_, processScene_cast_error _ _ _ _ _ _ hres hcast⟩
    | some ps =>
      cases hinst : ps.canInstantiate with
      | false => exact ⟨_, processScene_instantiate_error _ _ _ _ _ _ _ hres hcast hinst⟩
      | true =>
        refine ⟨msgUnwrapNone, ?_⟩
        simp [processScene, hres, hcast, instantiate_of_can _ _ hinst, hcs]

/-- Shape of any successful `processScene` step: the node id is fresh, the
current-scene flag is untouched, exactly one node is allocated, exactly one
child entry is appended to the scene root, and the log grows by at most one
mismatch event. -/
theorem processScene_shape (assets : List (Nat × ErasedGdResource))
    (loader : List (String × GodotResource)) (tree : SceneTreeState)
    (log : List LogEvent) (sc : GodotScene) (t1 : SceneTreeState)
    (l1 : List LogEvent) (nid : Nat)
    (h : processScene assets loader tree log sc = .ok (t1, l1, nid)) :
    nid = tree.nodes.length ∧
    t1.hasCurrentScene = tree.hasCurrentScene ∧
    (∃ n, t1.nodes = tree.nodes ++ [n]) ∧
    t1.rootChildren = tree.rootChildren ++ [newChildEntry tree] ∧
    (l1 = log ∨ l1 = log ++ [LogEvent.error transformMismatchMsg]) := by
  cases hres : resolveResource assets loader sc.resource with
  | error m => rw [processScene_resolve_error _ _ _ _ _ _ hres] at h; cases h
  | ok res =>
    cases hcast : res.tryCastPackedScene with
    | none => rw [processScene_cast_error _ _ _ _ _ _ hres hcast] at h; cases h
    | some ps =>
      cases hinst : ps.canInstantiate with
      | false => rw [processScene_instantiate_error _ _ _ _ _ _ _ hres hcast hinst] at h; cases h
      | true =>
        cases hcs : tree.hasCurrentScene with
        | false =>
          obtain ⟨m, hm⟩ := processScene_noCurrentScene assets loader tree log sc hcs
          rw [hm] at h; cases h
        | true =>
          cases htr : sc.transform with
          | none =>
            rw [processScene_noTransform _ _ _ _ _ _ _ hres hcast hinst hcs htr] at h
            simp only [Except.ok.injEq, Prod.mk.injEq] at h
            obtain ⟨ht1, hl1, hnid⟩ := h
            subst ht1; subst hl1; subst hnid
            exact ⟨rfl, hcs, ⟨_, rfl⟩, rfl, Or.inl rfl⟩
          | some tr =>
            cases tr with
            | Transform2D t =>
              cases hcls : ps.rootClass.castsToNode2D with
              | true =>
                rw [processScene_t2_hit _ _ _ _ _ _ _ t hres hcast hinst hcs htr hcls] at h
                simp only [Except.ok.injEq, Prod.mk.injEq] at h
                obtain ⟨ht1, hl1, hnid⟩ := h
                subst ht1; subst hl1; subst hnid
                exact ⟨rfl, hcs, ⟨_, rfl⟩, rfl, Or.inl rfl⟩
              | false =>
                rw [processScene_t2_miss _ _ _ _ _ _ _ t hres hcast hinst hcs htr hcls] at h
                simp only [Except.ok.injEq, Prod.mk.injEq] at h
                obtain ⟨ht1, hl1, hnid⟩ := h
                subst ht1; subst hl1; subst hnid
                exact ⟨rfl, hcs, ⟨_, rfl⟩, rfl, Or.inr rfl⟩
            | Transform3D t =>
              cases hcls : ps.rootClass.castsToNode3D with
              | true =>
                rw [processScene_t3_hit _ _ _ _ _ _ _ t hres hcast hinst hcs htr hcls] at h
                simp only [Except.ok.injEq, Prod.mk.injEq] at h
                obtain ⟨ht1, hl1, hnid⟩ := h
                subst ht1; subst hl1; subst hnid
                exact ⟨rfl, hcs, ⟨_, rfl⟩, rfl, Or.inl rfl⟩
              | false =>
                rw [processScene_t3_miss _ _ _ _ _ _ _ t hres hcast hinst hcs htr hcls] at h
                simp only [Except.ok.injEq, Prod.mk.injEq] at h
                obtain ⟨ht1, hl1, hnid⟩ := h
                subst ht1; subst hl1; subst hnid
                exact ⟨rfl, hcs, ⟨_, rfl⟩, rfl, Or.inr rfl⟩

theorem matchesQuery_iff (e : EntityRec) :
    e.matchesQuery = true ↔ (∃ sc, e.scene = some sc) ∧ e.spawned = false := by
  cases hsc : e.scene <;> cases hsp : e.spawned <;>
    simp [EntityRec.matchesQuery, hsc, hsp]

theorem runPass_nil (assets : List (Nat × ErasedGdResource))
    (loader : List (String × GodotResource)) (tree : SceneTreeState)
    (log : List LogEvent) :
    runPass assets loader [] tree log = .ok (tree, log, []) := rfl

theorem runPass_cons_skip (assets : List (Nat × ErasedGdResource))
    (loader : List (String × GodotResource)) (e : EntityRec) (rest : List EntityRec)
    (tree : SceneTreeState) (log : List LogEvent)
    (h : e.matchesQuery = false) :
    runPass assets loader (e :: rest) tree log = runPass assets loader rest tree log := by
  cases hsc : e.scene <;> cases hsp : e.spawned <;>
    simp_all [runPass, EntityRec.matchesQuery]

theorem runPass_cons_error (assets : List (Nat × ErasedGdResource))
    (loader : List (String × GodotResource)) (e : EntityRec) (rest : List EntityRec)
    (tree : SceneTreeState) (log : List LogEvent) (sc : GodotScene) (m : String)
    (hsc : e.scene = some sc) (hsp : e.spawned = false)
    (hproc : processScene assets loader tree log sc = .error m) :
    runPass assets loader (e :: rest) tree log = .error m := by
  simp [runPass, hsc, hsp, hproc]

theorem runPass_cons_ok (assets : List (Nat × ErasedGdResource))
    (loader : List (String × GodotResource)) (e : EntityRec) (rest : List EntityRec)
    (tree : SceneTreeState) (log : List LogEvent) (sc : GodotScene)
    (t1 : SceneTreeState) (l1 : List LogEvent) (nid : Nat)
    (hsc : e.scene = some sc) (hsp : e.spawned = false)
    (hproc : processScene assets loader tree log sc = .ok (t1, l1, nid)) :
    runPass assets loader (e :: rest) tree log =
      match runPass assets loader rest t1 l1 with
      | .error m => .error m
      | .ok (t2, l2, c) => .ok (t2, l2, (e.id, nid) :: c) := by
  simp [runPass, hsc, hsp, hproc]

/-- Composition of the pass over an appended entity list. -/
theorem runPass_append (assets : List (Nat × ErasedGdResource))
    (loader : List (String × GodotResource)) (xs ys : List EntityRec)
    (tree : SceneTreeState) (log : List LogEvent) :
    runPass assets loader (xs ++ ys) tree log =
      match runPass assets loader xs tree log with
      | .error m => .error m
      | .ok (t1, l1, c1) =>
        match runPass assets loader ys t1 l1 with
        | .error m => .error m
        | .ok (t2, l2, c2) => .ok (t2, l2, c1 ++ c2) := by
  induction xs generalizing tree log with
  | nil =>
    simp only [List.nil_append, runPass_nil]
    cases hr : runPass assets loader ys tree log with
    | error m => rfl
    | ok r => rfl
  | cons x xs ih =>
    by_cases hm : x.matchesQuery = true
    · obtain ⟨⟨sc, hsc⟩, hsp⟩ := (matchesQuery_iff x).mp hm
      cases hp : processScene assets loader tree log sc with
      | error m =>
        rw [List.cons_append, runPass_cons_error _ _ _ _ _ _ _ _ hsc hsp hp,
          runPass_cons_error _ _ _ _ _ _ _ _ hsc hsp hp]
      | ok r =>
        obtain ⟨t1, l1, nid⟩ := r
        rw [List.cons_append, runPass_cons_ok _ _ _ _ _ _ _ _ _ _ hsc hsp hp,
          runPass_cons_ok _ _ _ _ _ _ _ _ _ _ hsc hsp hp, ih t1 l1]
        cases hxs : runPass assets loader xs t1 l1 with
        | error m => rfl
        | ok r2 =>
          obtain ⟨t2, l2, c2⟩ := r2
          cases hys : runPass assets loader ys t2 l2 with
          | error m => simp [hys]
          | ok r3 => obtain ⟨t3, l3, c3⟩ := r3; simp [hys]
    · rw [Bool.not_eq_true] at hm
      rw [List.cons_append, runPass_cons_skip _ _ _ _ _ _ hm,
        runPass_cons_skip _ _ _ _ _ _ hm]
      exact ih tree log

/-- Inversion of a successful pass step on a matched entity. -/
theorem runPass_cons_match_inv (assets : List (Nat × ErasedGdResource))
    (loader : List (String × GodotResource)) (e : EntityRec) (rest : List EntityRec)
    (tree : SceneTreeState) (log : List LogEvent) (sc : GodotScene)
    (t : SceneTreeState) (l : List LogEvent) (c : List (Nat × Nat))
    (hsc : e.scene = some sc) (hsp : e.spawned = false)
    (h : runPass assets loader (e :: rest) tree log = .ok (t, l, c)) :
    ∃ t1 l1 nid c2,
      processScene assets loader tree log sc = .ok (t1, l1, nid) ∧
      runPass assets loader rest t1 l1 = .ok (t, l, c2) ∧
      c = (e.id, nid) :: c2 := by
  cases hp : processScene assets loader tree log sc with
  | error m => rw [runPass_cons_error _ _ _ _ _ _ _ _ hsc hsp hp] at h; cases h
  | ok r =>
    obtain ⟨t1, l1, nid⟩ := r
    rw [runPass_cons_ok _ _ _ _ _ _ _ _ _ _ hsc hsp hp] at h
    cases hr : runPass assets loader rest t1 l1 with
    | error m => rw [hr] at h; cases h
    | ok r2 =>
      obtain ⟨t2, l2, c2⟩ := r2
      rw [hr] at h
      simp only [Except.ok.injEq, Prod.mk.injEq] at h
      obtain ⟨ht, hl, hc⟩ := h
      subst ht; subst hl; subst hc
      exact ⟨t1, l1, nid, c2, rfl, hr, rfl⟩

/-- Every entity the query matched has a buffered command after a successful
pass. -/
theorem runPass_lookup_isSome (assets : List (Nat × ErasedGdResource))
    (loader : List (String × GodotResource)) (es : List EntityRec)
    (tree : SceneTreeState) (log : List LogEvent) (t : SceneTreeState)
    (l : List LogEvent) (c : List (Nat × Nat))
    (h : runPass assets loader es tree log = .ok (t, l, c)) :
    ∀ e ∈ es, e.matchesQuery = true → (assocLookup c e.id).isSome = true := by
  induction es generalizing tree log c with
  | nil => intro e he; cases he
  | cons x rest ih =>
    intro e he hm
    by_cases hx : x.matchesQuery = true
    · obtain ⟨⟨sc, hsc⟩, hsp⟩ := (matchesQuery_iff x).mp hx
      obtain ⟨t1, l1, nid, c2, hp, hr, hceq⟩ :=
        runPass_cons_match_inv _ _ _ _ _ _ _ _ _ _ hsc hsp h
      subst hceq
      rcases List.mem_cons.mp he with rfl | he'
      · simp [assocLookup]
      · by_cases hid : e.id = x.id
        · simp [assocLookup, hid]
        · simpa [assocLookup, hid] using ih t1 l1 c2 hr e he' hm
    · rw [Bool.not_eq_true] at hx
      rw [runPass_cons_skip _ _ _ _ _ _ hx] at h
      rcases List.mem_cons.mp he with rfl | he'
      · rw [hm] at hx; cases hx
      · exact ih tree log c h e he' hm

/-- Every buffered command belongs to some entity of the pass. -/
theorem runPass_cmds_mem (assets : List (Nat × ErasedGdResource))
    (loader : List (String × GodotResource)) (es : List EntityRec)
    (tree : SceneTreeState) (log : List LogEvent) (t : SceneTreeState)
    (l : List LogEvent) (c : List (Nat × Nat))
    (h : runPass assets loader es tree log = .ok (t, l, c)) :
    ∀ x ∈ c, x.1 ∈ es.map EntityRec.id := by
  induction es generalizing tree log c with
  | nil =>
    rw [runPass_nil] at h
    simp only [Except.ok.injEq, Prod.mk.injEq] at h
    obtain ⟨-, -, hc⟩ := h
    subst hc
    intro x hx; cases hx
  | cons y rest ih =>
    intro x hx
    by_cases hy : y.matchesQuery = true
    · obtain ⟨⟨sc, hsc⟩, hsp⟩ := (matchesQuery_iff y).mp hy
      obtain ⟨t1, l1, nid, c2, hp, hr, hceq⟩ :=
        runPass_cons_match_inv _ _ _ _ _ _ _ _ _ _ hsc hsp h
      subst hceq
      rcases List.mem_cons.mp hx with rfl | hx'
      · simp
      · simp only [List.map_cons, List.mem_cons]
        exact Or.inr (ih t1 l1 c2 hr x hx')
    · rw [Bool.not_eq_true] at hy
      rw [runPass_cons_skip _ _ _ _ _ _ hy] at h
      simp only [List.map_cons, List.mem_cons]
      exact Or.inr (ih tree log c h x hx)

/-- The pass only appends to the log. -/
theorem runPass_log_append (assets : List (Nat × ErasedGdResource))
    (loader : List (String × GodotResource)) (es : List EntityRec)
    (tree : SceneTreeState) (log : List LogEvent) (t : SceneTreeState)
    (l : List LogEvent) (c : List (Nat × Nat))
    (h : runPass assets loader es tree log = .ok (t, l, c)) :
    ∃ s, l = log ++ s := by
  induction es generalizing tree log c with
  | nil =>
    rw [runPass_nil] at h
    simp only [Except.ok.injEq, Prod.mk.injEq] at h
    exact ⟨[], by rw [List.append_nil]; exact h.2.1.symm⟩
  | cons y rest ih =>
    by_cases hy : y.matchesQuery = true
    · obtain ⟨⟨sc, hsc⟩, hsp⟩ := (matchesQuery_iff y).mp hy
      obtain ⟨t1, l1, nid, c2, hp, hr, -⟩ :=
        runPass_cons_match_inv _ _ _ _ _ _ _ _ _ _ hsc hsp h
      obtain ⟨-, -, -, -, hlog⟩ := processScene_shape _ _ _ _ _ _ _ _ hp
      obtain ⟨s, hs⟩ := ih t1 l1 c2 hr
      rcases hlog with h1 | h1
      · exact ⟨s, by rw [hs, h1]⟩
      · exact ⟨[LogEvent.error transformMismatchMsg] ++ s, by
          rw [hs, h1, List.append_assoc]⟩
    · rw [Bool.not_eq_true] at hy
      rw [runPass_cons_skip _ _ _ _ _ _ hy] at h
      exact ih tree log c h

/-- Scene-tree effect of a successful pass: the current-scene flag is
untouched, nodes are only appended, and the scene root gains exactly one
child per matched entity, with consecutive fresh node ids, legible-name flag
`false` and non-internal insertion mode. -/
theorem runPass_tree_shape (assets : List (Nat × ErasedGdResource))
    (loader : List (String × GodotResource)) (es : List EntityRec)
    (tree : SceneTreeState) (log : List LogEvent) (t : SceneTreeState)
    (l : List LogEvent) (c : List (Nat × Nat))
    (h : runPass assets loader es tree log = .ok (t, l, c)) :
    t.hasCurrentScene = tree.hasCurrentScene ∧
    (∃ ext, t.nodes = tree.nodes ++ ext) ∧
    ∃ new, t.rootChildren = tree.rootChildren ++ new ∧
      new.length = (es.filter (fun e => e.matchesQuery)).length ∧
      new.map ChildEntry.node = List.range' tree.nodes.length new.length ∧
      t.nodes.length = tree.nodes.length + new.length ∧
      ∀ x ∈ new, x.legibleUniqueName = false ∧
        x.internal = InternalMode.INTERNAL_MODE_DISABLED := by
  induction es generalizing tree log c with
  | nil =>
    rw [runPass_nil] at h
    simp only [Except.ok.injEq, Prod.mk.injEq] at h
    obtain ⟨ht, -, -⟩ := h
    subst ht
    exact ⟨rfl, ⟨[], by rw [List.append_nil]⟩,
      ⟨[], by rw [List.append_nil], rfl, rfl, by simp, by intro x hx; cases hx⟩⟩
  | cons y rest ih =>
    by_cases hy : y.matchesQuery = true
    · obtain ⟨⟨sc, hsc⟩, hsp⟩ := (matchesQuery_iff y).mp hy
      obtain ⟨t1, l1, nid, c2, hp, hr, -⟩ :=
        runPass_cons_match_inv _ _ _ _ _ _ _ _ _ _ hsc hsp h
      obtain ⟨hnid, hcs1, ⟨n, hn⟩, hrc1, -⟩ := processScene_shape _ _ _ _ _ _ _ _ hp
      obtain ⟨hcs2, ⟨ext, hext⟩, new', hrc2, hlen2, hmap2, hnlen2, hflags2⟩ :=
        ih t1 l1 c2 hr
      have ht1len : t1.nodes.length = tree.nodes.length + 1 := by
        rw [hn, List.length_append, List.length_singleton]
      refine ⟨hcs2.trans hcs1, ⟨n :: ext, by rw [hext, hn, List.append_assoc]; rfl⟩,
        newChildEntry tree :: new', ?_, ?_, ?_, ?_, ?_⟩
      · rw [hrc2, hrc1, List.append_assoc]; rfl
      · simp [List.filter_cons, hy, hlen2]
      · rw [List.map_cons, List.length_cons, List.range'_succ, hmap2, ht1len]
        rfl
      · rw [hnlen2, ht1len, List.length_cons]; omega
      · intro x hx
        rcases List.mem_cons.mp hx with rfl | hx'
        · exact ⟨rfl, rfl⟩
        · exact hflags2 x hx'
    · rw [Bool.not_eq_true] at hy
      rw [runPass_cons_skip _ _ _ _ _ _ hy] at h
      obtain ⟨h1, h2, new, h3, h4, h5, h6, h7⟩ := ih tree log c h
      exact ⟨h1, h2, new, h3, by simp [List.filter_cons, hy, h4], h5, h6, h7⟩

/-- A pass over entities none of which the query matches does nothing. -/
theorem runPass_no_match (assets : List (Nat × ErasedGdResource))
    (loader : List (String × GodotResource)) (es : List EntityRec)
    (tree : SceneTreeState) (log : List LogEvent)
    (h : ∀ e ∈ es, e.matchesQuery = false) :
    runPass assets loader es tree log = .ok (tree, log, []) := by
  induction es with
  | nil => exact runPass_nil _ _ _ _
  | cons y rest ih =>
    rw [runPass_cons_skip _ _ _ _ _ _ (h y (List.mem_cons_self y rest))]
    exact ih fun e he => h e (List.mem_cons_of_mem y he)

theorem assocLookup_cons_self {α β : Type} [DecidableEq α] (a : α) (b : β)
    (rest : List (α × β)) : assocLookup ((a, b) :: rest) a = some b := by
  simp [assocLookup]

theorem assocLookup_append_right {α β : Type} [DecidableEq α]
    (c1 c2 : List (α × β)) (a : α) (h : ∀ x ∈ c1, x.1 ≠ a) :
    assocLookup (c1 ++ c2) a = assocLookup c2 a := by
  induction c1 with
  | nil => rfl
  | cons x rest ih =>
    obtain ⟨k, v⟩ := x
    have hk : ¬a = k := fun hak =>
      h (k, v) (List.mem_cons_self _ _) (by simp [hak])
    simp only [List.cons_append, assocLookup, if_neg hk]
    exact ih fun y hy => h y (List.mem_cons_of_mem _ hy)

theorem applyCommands_get? (c : List (Nat × Nat)) (es : List EntityRec) (i : Nat) :
    (applyCommands c es).get? i =
      (es.get? i).map fun e =>
        match assocLookup c e.id with
        | some nid => { e with spawned := true, gd := some (ErasedGd.new nid) }
        | none => e := by
  induction es generalizing i with
  | nil => cases i <;> rfl
  | cons e rest ih =>
    cases i with
    | zero => rfl
    | succ n => exact ih n

theorem applyCommands_nil (es : List EntityRec) : applyCommands [] es = es := by
  simp [applyCommands, assocLookup]

theorem runPass_split_ok (assets : List (Nat × ErasedGdResource))
    (loader : List (String × GodotResource)) (pre post : List EntityRec)
    (e : EntityRec) (sc : GodotScene) (tree tp t1 t2 : SceneTreeState)
    (log lp l1 l2 : List LogEvent) (cp c2 : List (Nat × Nat)) (nid : Nat)
    (hpre : runPass assets loader pre tree log = .ok (tp, lp, cp))
    (hsc : e.scene = some sc) (hsp : e.spawned = false)
    (hproc : processScene assets loader tp lp sc = .ok (t1, l1, nid))
    (hpost : runPass assets loader post t1 l1 = .ok (t2, l2, c2)) :
    runPass assets loader (pre ++ e :: post) tree log =
      .ok (t2, l2, cp ++ (e.id, nid) :: c2) := by
  rw [runPass_append, hpre]
  show (match runPass assets loader (e :: post) tp lp with
    | Except.error m => Except.error m
    | Except.ok (a, b, c) => Except.ok (a, b, cp ++ c)) = _
  rw [runPass_cons_ok _ _ _ _ _ _ _ _ _ _ hsc hsp hproc, hpost]

theorem runPass_split_error (assets : List (Nat × ErasedGdResource))
    (loader : List (String × GodotResource)) (pre post : List EntityRec)
    (e : EntityRec) (sc : GodotScene) (tree tp : SceneTreeState)
    (log lp : List LogEvent) (cp : List (Nat × Nat)) (m : String)
    (hpre : runPass assets loader pre tree log = .ok (tp, lp, cp))
    (hsc : e.scene = some sc) (hsp : e.spawned = false)
    (hproc : processScene assets loader tp lp sc = .error m) :
    runPass assets loader (pre ++ e :: post) tree log = .error m := by
  rw [runPass_append, hpre]
  show (match runPass assets loader (e :: post) tp lp with
    | Except.error m => Except.error m
    | Except.ok (a, b, c) => Except.ok (a, b, cp ++ c)) = _
  rw [runPass_cons_error _ _ _ _ _ _ _ _ hsc hsp hproc]

theorem assocLookup_split (cp c2 : List (Nat × Nat)) (eid nid : Nat)
    (h : ∀ x ∈ cp, x.1 ≠ eid) :
    assocLookup (cp ++ (eid, nid) :: c2) eid = some nid := by
  rw [assocLookup_append_right _ _ _ h, assocLookup_cons_self]

/-- With pairwise distinct entity ids, no command buffered for the prefix can
carry the id of the split entity. -/
theorem cmds_pre_ne_id (assets : List (Nat × ErasedGdResource))
    (loader : List (String × GodotResource)) (pre post : List EntityRec)
    (e : EntityRec) (tree tp : SceneTreeState) (log lp : List LogEvent)
    (cp : List (Nat × Nat))
    (hnodup : ((pre ++ e :: post).map EntityRec.id).Nodup)
    (hpre : runPass assets loader pre tree log = .ok (tp, lp, cp)) :
    ∀ x ∈ cp, x.1 ≠ e.id := by
  intro x hx heq
  have hmem : x.1 ∈ pre.map EntityRec.id :=
    runPass_cmds_mem _ _ _ _ _ _ _ _ hpre x hx
  rw [List.map_append] at hnodup
  obtain ⟨-, -, hdisj⟩ := List.nodup_append.mp hnodup
  exact hdisj (heq ▸ hmem) (by simp)

/-- `spawn_scene` on a world whose entity list splits around one matched,
successfully processed entity: the resulting world explicitly, and the
processed entity with its marker and node handle. -/
theorem spawn_scene_split_ok (w : World) (pre post : List EntityRec)
    (e : EntityRec) (sc : GodotScene) (tp t1 t2 : SceneTreeState)
    (lp l1 l2 : List LogEvent) (cp c2 : List (Nat × Nat)) (nid : Nat)
    (hnodup : (w.entities.map EntityRec.id).Nodup)
    (hsplit : w.entities = pre ++ e :: post)
    (hpre : runPass w.assets w.loader pre w.tree w.log = .ok (tp, lp, cp))
    (hsc : e.scene = some sc) (hsp : e.spawned = false)
    (hproc : processScene w.assets w.loader tp lp sc = .ok (t1, l1, nid))
    (hpost : runPass w.assets w.loader post t1 l1 = .ok (t2, l2, c2)) :
    spawn_scene w = .ok { w with
        entities := applyCommands (cp ++ (e.id, nid) :: c2) w.entities,
        tree := t2, log := l2 } ∧
    (applyCommands (cp ++ (e.id, nid) :: c2) w.entities).get? pre.length =
      some { e with spawned := true, gd := some (ErasedGd.new nid) } := by
  have hrun : runPass w.assets w.loader w.entities w.tree w.log =
      .ok (t2, l2, cp ++ (e.id, nid) :: c2) := by
    rw [hsplit]
    exact runPass_split_ok _ _ _ _ _ _ _ _ _ _ _ _ _ _ _ _ _ hpre hsc hsp hproc hpost
  constructor
  · simp [spawn_scene, hrun]
  · have hget : w.entities.get? pre.length = some e := by
      rw [hsplit, List.get?_append_right (le_refl pre.length), Nat.sub_self]
      rfl
    have hlook : assocLookup (cp ++ (e.id, nid) :: c2) e.id = some nid := by
      refine assocLookup_split _ _ _ _ ?_
      exact cmds_pre_ne_id _ _ _ _ _ _ _ _ _ _ (hsplit ▸ hnodup) hpre
    rw [applyCommands_get?, hget]
    simp [hlook]

/-! ### Claim theorems -/

/-- Claim C10: the constructors `from_path`, `from_handle` and `from_resource`
produce a `GodotScene` with the corresponding resource variant and no
transform descriptor; each `with_transform2d` / `with_transform3d` /
`with_translation2d` / `with_translation3d` sets the descriptor to the given
value, replacing any previously set descriptor (the last call wins), the
translation builders setting it to the identity transform translated by the
given vector. -/
theorem godotScene_builders_spec :
    (∀ p : String, GodotScene.from_path p = ⟨GodotSceneResource.Path p, none⟩) ∧
    (∀ h : Nat, GodotScene.from_handle h = ⟨GodotSceneResource.Handle h, none⟩) ∧
    (∀ r : ErasedGdResource,
      GodotScene.from_resource r = ⟨GodotSceneResource.Resource r, none⟩) ∧
    (∀ (s : GodotScene) (t : Transform2D),
      s.with_transform2d t = ⟨s.resource, some (GodotSceneTransform.Transform2D t)⟩) ∧
    (∀ (s : GodotScene) (t : Transform3D),
      s.with_transform3d t = ⟨s.resource, some (GodotSceneTransform.Transform3D t)⟩) ∧
    (∀ (s : GodotScene) (v : Vector2),
      s.with_translation2d v =
        ⟨s.resource, some (GodotSceneTransform.Transform2D ⟨⟨1, 0⟩, ⟨0, 1⟩, v⟩)⟩) ∧
    (∀ (s : GodotScene) (v : Vector3),
      s.with_translation3d v =
        ⟨s.resource, some (GodotSceneTransform.Transform3D ⟨Basis.IDENTITY, v⟩)⟩) ∧
    (∀ (s : GodotScene) (t2 : Transform2D) (t3 : Transform3D),
      (s.with_transform2d t2).with_transform3d t3 = s.with_transform3d t3 ∧
      (s.with_transform3d t3).with_transform2d t2 = s.with_transform2d t2) := by
  refine ⟨fun p => rfl, fun h => rfl, fun r => rfl, fun s t => rfl, fun s t => rfl,
    ?_, ?_, fun s t2 t3 => ⟨rfl, rfl⟩⟩
  · intro s v
    obtain ⟨x, y⟩ := v
    simp [GodotScene.with_translation2d, Transform2D.translated, Transform2D.IDENTITY,
      Vector2.add]
  · intro s v
    obtain ⟨x, y, z⟩ := v
    simp [GodotScene.with_translation3d, Transform3D.translated, Transform3D.default,
      Vector3.add]

/-- Claim C7: for a resolved resource reaching the instantiation step, a
resource that is not a `PackedScene` makes the pass abort fatally; a
`PackedScene` whose instantiation yields no root makes the pass abort
fatally; otherwise instantiation is performed with edit-state generation
disabled and yields the single detached root node. -/
theorem instantiator_contract (assets : List (Nat × ErasedGdResource))
    (loader : List (String × GodotResource)) (tree : SceneTreeState)
    (log : List LogEvent) (sc : GodotScene) (res : GodotResource)
    (hres : resolveResource assets loader sc.resource = .ok res) :
    (res.tryCastPackedScene = none →
      processScene assets loader tree log sc = .error msgNotPackedScene) ∧
    (∀ ps, res.tryCastPackedScene = some ps → ps.canInstantiate = false →
      processScene assets loader tree log sc = .error msgUnwrapNone) ∧
    (∀ ps, res.tryCastPackedScene = some ps → ps.canInstantiate = true →
      ps.instantiate GenEditState.GEN_EDIT_STATE_DISABLED = some (instantiatedNode ps) ∧
      (instantiatedNode ps).editState = GenEditState.GEN_EDIT_STATE_DISABLED) :=
  ⟨fun hc => processScene_cast_error _ _ _ _ _ _ hres hc,
   fun ps hc hi => processScene_instantiate_error _ _ _ _ _ _ _ hres hc hi,
   fun ps _ hi => ⟨instantiate_of_can ps _ hi, rfl⟩⟩

def psA : PackedScene :=
  ⟨NodeClass.node3d, 2, Transform2D.IDENTITY, Transform3D.default, true⟩

def resA : GodotResource := .packedScene psA

def erA : ErasedGdResource := ⟨resA⟩

def treeA : SceneTreeState := ⟨true, [], []⟩

theorem instantiator_contract_witness :
    processScene [] [] treeA []
        (GodotScene.from_resource ⟨GodotResource.other "Texture"⟩) =
      .error msgNotPackedScene ∧
    (psA.instantiate GenEditState.GEN_EDIT_STATE_DISABLED = some (instantiatedNode psA) ∧
      (instantiatedNode psA).editState = GenEditState.GEN_EDIT_STATE_DISABLED) :=
  ⟨(instantiator_contract [] [] treeA []
      (GodotScene.from_resource ⟨GodotResource.other "Texture"⟩)
      (GodotResource.other "Texture") rfl).1 rfl,
   (instantiator_contract [] [] treeA [] (GodotScene.from_resource erA) resA
      rfl).2.2 psA rfl rfl⟩

/-- Claim C6: a `Path` reference and a `Handle` reference denoting the same
underlying resource resolve to the same value, and instantiating that value
yields structurally equivalent node trees (same root class, same child
count): resolution erases how the resource was obtained. -/
theorem resolution_equivalence (assets : List (Nat × ErasedGdResource))
    (loader : List (String × GodotResource)) (p : String) (h : Nat)
    (res : GodotResource) (er : ErasedGdResource)
    (hload : ResourceLoader.load loader p "PackedScene" CacheMode.CACHE_MODE_REUSE
      = some res)
    (hasset : Assets.get assets h = some er)
    (hsame : er.get = res) :
    resolveResource assets loader (.Path p) = .ok res ∧
    resolveResource assets loader (.Handle h) = .ok res ∧
    ∀ ps n1 n2, res.tryCastPackedScene = some ps →
      ps.instantiate GenEditState.GEN_EDIT_STATE_DISABLED = some n1 →
      ps.instantiate GenEditState.GEN_EDIT_STATE_DISABLED = some n2 →
      n1.cls = n2.cls ∧ n1.childCount = n2.childCount := by
  refine ⟨by simp [resolveResource, hload], by simp [resolveResource, hasset, hsame], ?_⟩
  intro ps n1 n2 _ h1 h2
  rw [h1] at h2
  obtain rfl := Option.some.inj h2
  exact ⟨rfl, rfl⟩

theorem resolution_equivalence_witness :
    resolveResource [(7, erA)] [("scenes/prop.tscn", resA)]
      (.Path "scenes/prop.tscn") = .ok resA ∧
    resolveResource [(7, erA)] [("scenes/prop.tscn", resA)] (.Handle 7) = .ok resA :=
  ⟨(resolution_equivalence [(7, erA)] [("scenes/prop.tscn", resA)] "scenes/prop.tscn" 7
      resA erA rfl rfl rfl).1,
   (resolution_equivalence [(7, erA)] [("scenes/prop.tscn", resA)] "scenes/prop.tscn" 7
      resA erA rfl rfl rfl).2.1⟩

/-- Claim C3: a spawn request whose resource reference is a `Handle` not
present in the asset store makes the pass abort fatally when it is reached,
with the `expect` message of the asset lookup; the entity state at the abort
is the unmodified input state, so the entity keeps no marker and gains no
node handle. -/
theorem missing_handle_panics (w : World) (pre post : List EntityRec)
    (e : EntityRec) (sc : GodotScene) (hid : Nat) (tp : SceneTreeState)
    (lp : List LogEvent) (cp : List (Nat × Nat))
    (hsplit : w.entities = pre ++ e :: post)
    (hpre : runPass w.assets w.loader pre w.tree w.log = .ok (tp, lp, cp))
    (hsc : e.scene = some sc) (hres : sc.resource = .Handle hid)
    (hsp : e.spawned = false)
    (hmiss : Assets.get w.assets hid = none) :
    spawn_scene w = .error ⟨msgAssetMissing, w.entities⟩ ∧
    e ∈ w.entities ∧ e.spawned = false := by
  have hresolve : resolveResource w.assets w.loader sc.resource = .error msgAssetMissing := by
    rw [hres]; simp [resolveResource, hmiss]
  have hproc := processScene_resolve_error w.assets w.loader tp lp sc _ hresolve
  have hall : runPass w.assets w.loader w.entities w.tree w.log = .error msgAssetMissing := by
    rw [hsplit]
    exact runPass_split_error _ _ _ _ _ _ _ _ _ _ _ _ hpre hsc hsp hproc
  refine ⟨by simp [spawn_scene, hall], ?_, hsp⟩
  rw [hsplit]
  exact List.mem_append_right _ (List.mem_cons_self _ _)

def entC3 : EntityRec := ⟨0, some (GodotScene.from_handle 5), false, none⟩

def wC3 : World := ⟨[entC3], [], [], treeA, []⟩

theorem missing_handle_panics_witness :
    spawn_scene wC3 = .error ⟨msgAssetMissing, wC3.entities⟩ ∧
    entC3 ∈ wC3.entities ∧ entC3.spawned = false :=
  missing_handle_panics wC3 [] [] entC3 (GodotScene.from_handle 5) 5 treeA [] []
    rfl rfl rfl rfl rfl rfl

/-- Inversion of a successful `spawn_scene` call. -/
theorem spawn_scene_ok_inv (w w' : World) (hok : spawn_scene w = .ok w') :
    ∃ t l c, runPass w.assets w.loader w.entities w.tree w.log = .ok (t, l, c) ∧
      w' = { w with entities := applyCommands c w.entities, tree := t, log := l } := by
  cases hr : runPass w.assets w.loader w.entities w.tree w.log with
  | error m => simp [spawn_scene, hr] at hok
  | ok r =>
    obtain ⟨t, l, c⟩ := r
    refine ⟨t, l, c, rfl, ?_⟩
    simp only [spawn_scene, hr] at hok
    exact (Except.ok.inj hok).symm

/-- Claim C1: after a successful `spawn_scene` pass and its command flush,
every entity that had a `GodotScene` and no `GodotSceneSpawned` marker has
both the marker and an `ErasedGd` handle; a failing pass instead aborts the
whole pass. No entity ends the pass with only one of the two: each entity is
either untouched or receives both. -/
theorem spawn_marks_and_attaches (w w' : World) (hok : spawn_scene w = .ok w') :
    w'.entities.length = w.entities.length ∧
    (∀ i e, w.entities.get? i = some e → e.scene.isSome = true → e.spawned = false →
      ∃ e', w'.entities.get? i = some e' ∧ e'.spawned = true ∧ e'.gd.isSome = true) ∧
    (∀ i e e', w.entities.get? i = some e → w'.entities.get? i = some e' →
      e' = e ∨ (e'.spawned = true ∧ e'.gd.isSome = true)) := by
  obtain ⟨t, l, c, hr, rfl⟩ := spawn_scene_ok_inv w w' hok
  refine ⟨by simp [applyCommands], ?_, ?_⟩
  · intro i e hget hscene hsp
    have hmem : e ∈ w.entities := List.get?_mem hget
    have hmatch : e.matchesQuery = true := by
      simp [EntityRec.matchesQuery, hscene, hsp]
    have hsome := runPass_lookup_isSome _ _ _ _ _ _ _ _ hr e hmem hmatch
    obtain ⟨nid, hnid⟩ := Option.isSome_iff_exists.mp hsome
    refine ⟨{ e with spawned := true, gd := some (ErasedGd.new nid) }, ?_, rfl, rfl⟩
    show (applyCommands c w.entities).get? i = _
    rw [applyCommands_get?, hget]
    simp [hnid]
  · intro i e e' hget hget'
    have hget2 : (applyCommands c w.entities).get? i = some e' := hget'
    rw [applyCommands_get?, hget] at hget2
    simp only [Option.map_some'] at hget2
    cases hl : assocLookup c e.id with
    | some nid =>
      rw [hl] at hget2
      obtain rfl := Option.some.inj hget2
      exact Or.inr ⟨rfl, rfl⟩
    | none =>
      rw [hl] at hget2
      obtain rfl := Option.some.inj hget2
      exact Or.inl rfl

def entA : EntityRec := ⟨0, some (GodotScene.from_resource erA), false, none⟩

def wA : World := ⟨[entA], [], [], treeA, []⟩

def wA' : World :=
  ⟨[⟨0, some (GodotScene.from_resource erA), true, some ⟨0⟩⟩], [], [],
    ⟨true, [instantiatedNode psA], [⟨0, false, InternalMode.INTERNAL_MODE_DISABLED⟩]⟩, []⟩

theorem spawn_marks_and_attaches_witness :
    ∃ e', wA'.entities.get? 0 = some e' ∧ e'.spawned = true ∧ e'.gd.isSome = true :=
  (spawn_marks_and_attaches wA wA' (by rfl)).2.1 0 entA (by rfl) (by rfl) (by rfl)

/-- Claim C2: processing is idempotent. A pass over entities that all carry
the `GodotSceneSpawned` marker does nothing at all (no resolution, no
instantiation, no attachment, no commands), and running the pass again after
a successful pass and flush returns the world unchanged. -/
theorem spawn_pass_idempotent :
    (∀ (assets : List (Nat × ErasedGdResource)) (loader : List (String × GodotResource))
      (es : List EntityRec) (tree : SceneTreeState) (log : List LogEvent),
      (∀ e ∈ es, e.spawned = true) →
      runPass assets loader es tree log = .ok (tree, log, [])) ∧
    (∀ w w', spawn_scene w = .ok w' → spawn_scene w' = .ok w') := by
  constructor
  · intro assets loader es tree log h
    refine runPass_no_match _ _ _ _ _ ?_
    intro e he
    simp [EntityRec.matchesQuery, h e he]
  · intro w w' hok
    obtain ⟨t, l, c, hr, rfl⟩ := spawn_scene_ok_inv w w' hok
    have hnm : ∀ e' ∈ applyCommands c w.entities, e'.matchesQuery = false := by
      intro e' he'
      simp only [applyCommands, List.mem_map] at he'
      obtain ⟨e, he, rfl⟩ := he'
      cases hl : assocLookup c e.id with
      | some nid => simp [hl, EntityRec.matchesQuery]
      | none =>
        simp only [hl]
        by_contra hx
        rw [Bool.not_eq_false] at hx
        have hs := runPass_lookup_isSome _ _ _ _ _ _ _ _ hr e he hx
        rw [hl] at hs
        cases hs
    show spawn_scene _ = _
    simp [spawn_scene, runPass_no_match _ _ _ _ _ hnm, applyCommands_nil]

theorem spawn_pass_idempotent_witness : spawn_scene wA' = .ok wA' :=
  spawn_pass_idempotent.2 wA wA' (by rfl)

/-- Claim C9: the pass leaves every `GodotScene` component unchanged (no
in-place memoization of the `Handle` variant), and the only change it makes
to an entity is adding the `ErasedGd` handle and the `GodotSceneSpawned`
marker. -/
theorem pass_preserves_scene_component (w w' : World)
    (hok : spawn_scene w = .ok w') :
    w'.entities.length = w.entities.length ∧
    ∀ i e, w.entities.get? i = some e →
      ∃ e', w'.entities.get? i = some e' ∧ e'.scene = e.scene ∧ e'.id = e.id ∧
        (e' = e ∨ ∃ nid, e' = { e with spawned := true, gd := some (ErasedGd.new nid) }) := by
  obtain ⟨t, l, c, hr, rfl⟩ := spawn_scene_ok_inv w w' hok
  refine ⟨by simp [applyCommands], ?_⟩
  intro i e hget
  cases hl : assocLookup c e.id with
  | some nid =>
    refine ⟨{ e with spawned := true, gd := some (ErasedGd.new nid) }, ?_, rfl, rfl,
      Or.inr ⟨nid, rfl⟩⟩
    show (applyCommands c w.entities).get? i = _
    rw [applyCommands_get?, hget]
    simp [hl]
  | none =>
    refine ⟨e, ?_, rfl, rfl, Or.inl rfl⟩
    show (applyCommands c w.entities).get? i = _
    rw [applyCommands_get?, hget]
    simp [hl]

theorem pass_preserves_scene_component_witness :
    ∃ e', wA'.entities.get? 0 = some e' ∧ e'.scene = entA.scene ∧ e'.id = entA.id ∧
      (e' = entA ∨ ∃ nid,
        e' = { entA with spawned := true, gd := some (ErasedGd.new nid) }) :=
  (pass_preserves_scene_component wA wA' (by rfl)).2 0 entA (by rfl)

theorem nodes_get_after (assets : List (Nat × ErasedGdResource))
    (loader : List (String × GodotResource)) (post : List EntityRec)
    (t1 t2 : SceneTreeState) (l1 l2 : List LogEvent) (c2 : List (Nat × Nat))
    (base : List Node) (n : Node)
    (hnodes : t1.nodes = base ++ [n])
    (hpost : runPass assets loader post t1 l1 = .ok (t2, l2, c2)) :
    t2.nodes.get? base.length = some n := by
  obtain ⟨-, ⟨ext, hext⟩, -⟩ := runPass_tree_shape _ _ _ _ _ _ _ _ hpost
  rw [hext, hnodes, List.append_assoc, List.get?_append_right (le_refl _), Nat.sub_self]
  rfl

/-- Claim C8: a matched request reached without a current scene root aborts
the pass fatally, and a successful pass attaches exactly one fresh node per
matched request as a child of the scene root, with consecutive fresh node
ids and non-internal insertion mode. -/
theorem attachment_contract (w : World) :
    (∀ pre post e sc tp lp cp,
      w.entities = pre ++ e :: post →
      runPass w.assets w.loader pre w.tree w.log = .ok (tp, lp, cp) →
      e.scene = some sc → e.spawned = false →
      tp.hasCurrentScene = false →
      ∃ p, spawn_scene w = .error p) ∧
    (∀ w', spawn_scene w = .ok w' →
      ∃ new, w'.tree.rootChildren = w.tree.rootChildren ++ new ∧
        new.length = (w.entities.filter (fun e => e.matchesQuery)).length ∧
        new.map ChildEntry.node = List.range' w.tree.nodes.length new.length ∧
        ∀ x ∈ new, x.legibleUniqueName = false ∧
          x.internal = InternalMode.INTERNAL_MODE_DISABLED) := by
  constructor
  · intro pre post e sc tp lp cp hsplit hpre hsc hsp hcs
    obtain ⟨m, hm⟩ := processScene_noCurrentScene w.assets w.loader tp lp sc hcs
    have hall : runPass w.assets w.loader w.entities w.tree w.log = .error m := by
      rw [hsplit]
      exact runPass_split_error _ _ _ _ _ _ _ _ _ _ _ _ hpre hsc hsp hm
    exact ⟨⟨m, w.entities⟩, by simp [spawn_scene, hall]⟩
  · intro w' hok
    obtain ⟨t, l, c, hr, rfl⟩ := spawn_scene_ok_inv w w' hok
    obtain ⟨-, -, new, h1, h2, h3, -, h5⟩ := runPass_tree_shape _ _ _ _ _ _ _ _ hr
    exact ⟨new, h1, h2, h3, h5⟩

theorem attachment_contract_witness :
    ∃ new, wA'.tree.rootChildren = wA.tree.rootChildren ++ new ∧
      new.length = (wA.entities.filter (fun e => e.matchesQuery)).length ∧
      new.map ChildEntry.node = List.range' wA.tree.nodes.length new.length ∧
      ∀ x ∈ new, x.legibleUniqueName = false ∧
        x.internal = InternalMode.INTERNAL_MODE_DISABLED :=
  (attachment_contract wA).2 wA' (by rfl)

/-- Claim C4: a transform descriptor whose dimensionality the instantiated
node does not support is not fatal: the pass completes, a structured error
event with the mismatch message is logged, the node keeps its
template-default transforms, and the request is still marked processed with
a node handle attached. -/
theorem transform_mismatch_nonfatal (w : World) (pre post : List EntityRec)
    (e : EntityRec) (sc : GodotScene) (res : GodotResource) (ps : PackedScene)
    (tp t2 : SceneTreeState) (lp l2 : List LogEvent) (cp c2 : List (Nat × Nat))
    (hnodup : (w.entities.map EntityRec.id).Nodup)
    (hsplit : w.entities = pre ++ e :: post)
    (hpre : runPass w.assets w.loader pre w.tree w.log = .ok (tp, lp, cp))
    (hsc : e.scene = some sc) (hsp : e.spawned = false)
    (hres : resolveResource w.assets w.loader sc.resource = .ok res)
    (hcast : res.tryCastPackedScene = some ps)
    (hinst : ps.canInstantiate = true)
    (hcs : tp.hasCurrentScene = true)
    (hmis : (∃ v, sc.transform = some (GodotSceneTransform.Transform2D v) ∧
              ps.rootClass.castsToNode2D = false) ∨
            (∃ v, sc.transform = some (GodotSceneTransform.Transform3D v) ∧
              ps.rootClass.castsToNode3D = false))
    (hpost : runPass w.assets w.loader post
      { tp with
        nodes := tp.nodes ++ [instantiatedNode ps],
        rootChildren := tp.rootChildren ++ [newChildEntry tp] }
      (lp ++ [LogEvent.error transformMismatchMsg]) = .ok (t2, l2, c2)) :
    ∃ w', spawn_scene w = .ok w' ∧
      w'.entities.get? pre.length =
        some { e with spawned := true, gd := some (ErasedGd.new tp.nodes.length) } ∧
      LogEvent.error transformMismatchMsg ∈ w'.log ∧
      w'.tree.nodes.get? tp.nodes.length = some (instantiatedNode ps) ∧
      (instantiatedNode ps).t2 = ps.defaultT2 ∧
      (instantiatedNode ps).t3 = ps.defaultT3 := by
  have hproc : processScene w.assets w.loader tp lp sc =
      .ok ({ tp with
               nodes := tp.nodes ++ [instantiatedNode ps],
               rootChildren := tp.rootChildren ++ [newChildEntry tp] },
           lp ++ [LogEvent.error transformMismatchMsg], tp.nodes.length) := by
    rcases hmis with ⟨v, htr, hcls⟩ | ⟨v, htr, hcls⟩
    · exact processScene_t2_miss _ _ _ _ _ _ _ v hres hcast hinst hcs htr hcls
    · exact processScene_t3_miss _ _ _ _ _ _ _ v hres hcast hinst hcs htr hcls
  obtain ⟨hspawn, hentity⟩ :=
    spawn_scene_split_ok w pre post e sc tp _ t2 lp _ l2 cp c2 _
      hnodup hsplit hpre hsc hsp hproc hpost
  refine ⟨_, hspawn, hentity, ?_, ?_, rfl, rfl⟩
  · show LogEvent.error transformMismatchMsg ∈ l2
    obtain ⟨s, hs⟩ := runPass_log_append _ _ _ _ _ _ _ _ hpost
    rw [hs]
    simp
  · show t2.nodes.get? tp.nodes.length = some (instantiatedNode ps)
    exact nodes_get_after _ _ _ _ _ _ _ _ _ _ rfl hpost

def t3v : Transform3D := ⟨Basis.IDENTITY, ⟨1, 2, 3⟩⟩

def ps2 : PackedScene :=
  ⟨NodeClass.node2d, 0, Transform2D.IDENTITY, Transform3D.default, true⟩

def entC4 : EntityRec :=
  ⟨0, some ((GodotScene.from_resource ⟨.packedScene ps2⟩).with_transform3d t3v),
    false, none⟩

def wC4 : World := ⟨[entC4], [], [], treeA, []⟩

theorem transform_mismatch_nonfatal_witness :
    ∃ w', spawn_scene wC4 = .ok w' ∧
      w'.entities.get? 0 =
        some { entC4 with spawned := true, gd := some (ErasedGd.new 0) } ∧
      LogEvent.error transformMismatchMsg ∈ w'.log ∧
      w'.tree.nodes.get? 0 = some (instantiatedNode ps2) ∧
      (instantiatedNode ps2).t2 = ps2.defaultT2 ∧
      (instantiatedNode ps2).t3 = ps2.defaultT3 :=
  transform_mismatch_nonfatal wC4 [] [] entC4
    ((GodotScene.from_resource ⟨.packedScene ps2⟩).with_transform3d t3v)
    (.packedScene ps2) ps2 treeA
    { treeA with
      nodes := treeA.nodes ++ [instantiatedNode ps2],
      rootChildren := treeA.rootChildren ++ [newChildEntry treeA] }
    [] ([] ++ [LogEvent.error transformMismatchMsg]) [] []
    (by decide) rfl rfl rfl rfl rfl rfl rfl rfl
    (Or.inr ⟨t3v, rfl, rfl⟩) rfl

/-- Claim C5: a 3D transform descriptor on a 3D-capable node sets the node's
global transform to exactly the descriptor's value; a 2D descriptor on a
2D-capable node likewise; and with no descriptor the node keeps its
template-defined default transforms. -/
theorem transform_applied_exactly (w : World) (pre post : List EntityRec)
    (e : EntityRec) (sc : GodotScene) (res : GodotResource) (ps : PackedScene)
    (tp : SceneTreeState) (lp : List LogEvent) (cp : List (Nat × Nat))
    (hnodup : (w.entities.map EntityRec.id).Nodup)
    (hsplit : w.entities = pre ++ e :: post)
    (hpre : runPass w.assets w.loader pre w.tree w.log = .ok (tp, lp, cp))
    (hsc : e.scene = some sc) (hsp : e.spawned = false)
    (hres : resolveResource w.assets w.loader sc.resource = .ok res)
    (hcast : res.tryCastPackedScene = some ps)
    (hinst : ps.canInstantiate = true)
    (hcs : tp.hasCurrentScene = true) :
    (∀ v t2 l2 c2,
      sc.transform = some (GodotSceneTransform.Transform3D v) →
      ps.rootClass.castsToNode3D = true →
      runPass w.assets w.loader post
        { tp with
          nodes := tp.nodes ++ [{ instantiatedNode ps with t3 := v }],
          rootChildren := tp.rootChildren ++ [newChildEntry tp] } lp =
        .ok (t2, l2, c2) →
      ∃ w', spawn_scene w = .ok w' ∧
        w'.entities.get? pre.length =
          some { e with spawned := true, gd := some (ErasedGd.new tp.nodes.length) } ∧
        w'.tree.nodes.get? tp.nodes.length =
          some { instantiatedNode ps with t3 := v } ∧
        ({ instantiatedNode ps with t3 := v } : Node).t3 = v) ∧
    (∀ v t2 l2 c2,
      sc.transform = some (GodotSceneTransform.Transform2D v) →
      ps.rootClass.castsToNode2D = true →
      runPass w.assets w.loader post
        { tp with
          nodes := tp.nodes ++ [{ instantiatedNode ps with t2 := v }],
          rootChildren := tp.rootChildren ++ [newChildEntry tp] } lp =
        .ok (t2, l2, c2) →
      ∃ w', spawn_scene w = .ok w' ∧
        w'.entities.get? pre.length =
          some { e with spawned := true, gd := some (ErasedGd.new tp.nodes.length) } ∧
        w'.tree.nodes.get? tp.nodes.length =
          some { instantiatedNode ps with t2 := v } ∧
        ({ instantiatedNode ps with t2 := v } : Node).t2 = v) ∧
    (∀ t2 l2 c2,
      sc.transform = none →
      runPass w.assets w.loader post
        { tp with
          nodes := tp.nodes ++ [instantiatedNode ps],
          rootChildren := tp.rootChildren ++ [newChildEntry tp] } lp =
        .ok (t2, l2, c2) →
      ∃ w', spawn_scene w = .ok w' ∧
        w'.entities.get? pre.length =
          some { e with spawned := true, gd := some (ErasedGd.new tp.nodes.length) } ∧
        w'.tree.nodes.get? tp.nodes.length = some (instantiatedNode ps) ∧
        (instantiatedNode ps).t2 = ps.defaultT2 ∧
        (instantiatedNode ps).t3 = ps.defaultT3) := by
  refine ⟨?_, ?_, ?_⟩
  · intro v t2 l2 c2 htr hcls hpost
    have hproc :=
      processScene_t3_hit w.assets w.loader tp lp sc res ps v hres hcast hinst hcs htr hcls
    obtain ⟨hspawn, hentity⟩ :=
      spawn_scene_split_ok w pre post e sc tp _ t2 lp _ l2 cp c2 _
        hnodup hsplit hpre hsc hsp hproc hpost
    refine ⟨_, hspawn, hentity, ?_, rfl⟩
    show t2.nodes.get? tp.nodes.length = _
    exact nodes_get_after _ _ _ _ _ _ _ _ _ _ rfl hpost
  · intro v t2 l2 c2 htr hcls hpost
    have hproc :=
      processScene_t2_hit w.assets w.loader tp lp sc res ps v hres hcast hinst hcs htr hcls
    obtain ⟨hspawn, hentity⟩ :=
      spawn_scene_split_ok w pre post e sc tp _ t2 lp _ l2 cp c2 _
        hnodup hsplit hpre hsc hsp hproc hpost
    refine ⟨_, hspawn, hentity, ?_, rfl⟩
    show t2.nodes.get? tp.nodes.length = _
    exact nodes_get_after _ _ _ _ _ _ _ _ _ _ rfl hpost
  · intro t2 l2 c2 htr hpost
    have hproc :=
      processScene_noTransform w.assets w.loader tp lp sc res ps hres hcast hinst hcs htr
    obtain ⟨hspawn, hentity⟩ :=
      spawn_scene_split_ok w pre post e sc tp _ t2 lp _ l2 cp c2 _
        hnodup hsplit hpre hsc hsp hproc hpost
    refine ⟨_, hspawn, hentity, ?_, rfl, rfl⟩
    show t2.nodes.get? tp.nodes.length = _
    exact nodes_get_after _ _ _ _ _ _ _ _ _ _ rfl hpost

def entC5 : EntityRec :=
  ⟨0, some ((GodotScene.from_resource erA).with_transform3d t3v), false, none⟩

def wC5 : World := ⟨[entC5], [], [], treeA, []⟩

theorem transform_applied_exactly_witness :
    ∃ w', spawn_scene wC5 = .ok w' ∧
      w'.entities.get? 0 =
        some { entC5 with spawned := true, gd := some (ErasedGd.new 0) } ∧
      w'.tree.nodes.get? 0 = some { instantiatedNode psA with t3 := t3v } ∧
      ({ instantiatedNode psA with t3 := t3v } : Node).t3 = t3v :=
  (transform_applied_exactly wC5 [] [] entC5
    ((GodotScene.from_resource erA).with_transform3d t3v) resA psA treeA [] []
    (by decide) rfl rfl rfl rfl rfl rfl rfl rfl).1 t3v
    { treeA with
      nodes := treeA.nodes ++ [{ instantiatedNode psA with t3 := t3v }],
      rootChildren := treeA.rootChildren ++ [newChildEntry treeA] }
    [] [] rfl rfl rfl

end BevyGodot
